import Mathlib

/-!
Verification development for the amethyst server's wire-protocol layer
(src/packets.rs, src/net/login_handler.rs).

Modelling conventions:
* machine integers are `Nat` (u8/u16/usize) or `Int` (i8/i32/i64) with
  explicit `% 2^w` where wrap-around matters;
* Rust `String` protocol fields are modelled by their UTF-8 byte content
  (`List Nat`); the strings appearing here are ASCII, so
  `String.toList.map Char.toNat` gives exactly those bytes;
* fallible Rust functions returning `Result<_, &str>` become
  `Except String _`; `Option` stays `Option`;
* a Rust panic (an `unwrap` failure or a debug-mode arithmetic overflow)
  is modelled as `none` where the surrounding flow must account for it.
-/

/-- Bytes of an ASCII string, modelling a Rust `String`'s UTF-8 content. -/
def strBytes (s : String) : List Nat := s.toList.map (fun c => c.toNat)

/-- Chat components appear in this layer only through `to_string()`;
they are modelled by the bytes of that rendered string. -/
abbrev ChatComponent := List Nat

/-- `JsonValue` appears in this layer only through `to_string()`;
modelled by the bytes of the rendered JSON document. -/
abbrev JsonValue := List Nat

/-- A UUID, as its 16 raw bytes (`uuid.as_bytes()`). -/
abbrev Uuid := List Nat

/-- Modelled from the spec: a 3-D integer position packed into a single
64-bit value (`crate::game::position::Position` is not under src/);
represented by the packed 64-bit value itself. -/
abbrev Position := Nat

/-- `ConnectionState` from `crate::net::network_manager` (declaration not
under src/; the four states and their roles are fixed by the spec §3 and by
every `match` on the state in src/packets.rs and src/net/login_handler.rs). -/
inductive ConnectionState where
  | Handshaking
  | Status
  | Login
  | Play
deriving DecidableEq

/-- Rust `i32 as usize` (sign-extending to 64 bits, then reinterpreted). -/
def usizeOfI32 (v : Int) : Nat := (v % (2 : Int) ^ 64).toNat

/-- Reinterpret an unsigned 32-bit accumulator as an `i32`. -/
def toSigned32 (n : Nat) : Int :=
  if n % 2 ^ 32 < 2 ^ 31 then ((n % 2 ^ 32 : Nat) : Int)
  else ((n % 2 ^ 32 : Nat) : Int) - 2 ^ 32

/-- Reinterpret an unsigned 64-bit value as an `i64`. -/
def toSigned64 (n : Nat) : Int :=
  if n % 2 ^ 64 < 2 ^ 63 then ((n % 2 ^ 64 : Nat) : Int)
  else ((n % 2 ^ 64 : Nat) : Int) - 2 ^ 64

/-- Modelled from the spec: the varint read loop of `DataReader`
(`crate::data_reader` is not under src/). Spec §4.1: 7 data bits per byte,
high bit = continuation, little-endian group order; an incomplete or
over-length (more than 5 bytes for 32-bit) varint fails with
`MalformedVarint`. The fuel argument counts the remaining allowed bytes. -/
def varintLoop : Nat → Nat → Nat → List Nat → Except String (Nat × List Nat)
  | 0, _, _, _ => .error "MalformedVarint"
  | _ + 1, _, _, [] => .error "MalformedVarint"
  | fuel + 1, shift, acc, b :: rest =>
    let acc := acc + b % 128 * 2 ^ shift
    if b < 128 then .ok (acc, rest) else varintLoop fuel (shift + 7) acc rest

/-- Modelled from the spec: `DataReader::read_varint`, producing an `i32`. -/
def readVarint (l : List Nat) : Except String (Int × List Nat) :=
  match varintLoop 5 0 0 l with
  | .error e => .error e
  | .ok (n, rest) => .ok (toSigned32 n, rest)

/-- Modelled from the spec: `DataReader::read_data_fixed` — a raw byte block
of a caller-supplied length; reading past the buffer end fails with
`UnexpectedEof` (spec §4.1). -/
def readDataFixed (n : Nat) (l : List Nat) : Except String (List Nat × List Nat) :=
  if n ≤ l.length then .ok (l.take n, l.drop n) else .error "UnexpectedEof"

/-- Modelled from the spec: `DataReader::read_string` — a varint byte-length
followed by exactly that many bytes (spec §4.1); the bytes are returned as
the string's UTF-8 content. -/
def readString (l : List Nat) : Except String (List Nat × List Nat) :=
  match readVarint l with
  | .error e => .error e
  | .ok (len, rest) => readDataFixed (usizeOfI32 len) rest

/-- Modelled from the spec: `DataReader::read_u8`. -/
def readU8 (l : List Nat) : Except String (Nat × List Nat) :=
  match l with
  | [] => .error "UnexpectedEof"
  | b :: rest => .ok (b % 256, rest)

/-- Modelled from the spec: `DataReader::read_u16`, big-endian. -/
def readU16 (l : List Nat) : Except String (Nat × List Nat) :=
  match l with
  | b0 :: b1 :: rest => .ok ((b0 % 256) * 256 + b1 % 256, rest)
  | _ => .error "UnexpectedEof"

/-- Big-endian unsigned value of a byte list. -/
def beVal (l : List Nat) : Nat := l.foldl (fun a b => a * 256 + b % 256) 0

/-- Modelled from the spec: `DataReader::read_i64`, big-endian. -/
def readI64 (l : List Nat) : Except String (Int × List Nat) :=
  if 8 ≤ l.length then .ok (toSigned64 (beVal (l.take 8)), l.drop 8)
  else .error "UnexpectedEof"

/-- Big-endian byte encoding of `n` in exactly `k` bytes. -/
def beBytes : Nat → Nat → List Nat
  | 0, _ => []
  | k + 1, n => beBytes k (n / 256) ++ [n % 256]

/-- Modelled from the spec: `DataWriter::write_u8`. -/
def writeU8 (n : Nat) : List Nat := [n % 256]

/-- Modelled from the spec: varint encoding of an unsigned 32-bit value;
the fuel bounds the group count (5 groups always suffice below `2^35`). -/
def natVarintF : Nat → Nat → List Nat
  | 0, _ => []
  | fuel + 1, n => if n < 128 then [n] else (n % 128 + 128) :: natVarintF fuel (n / 128)

/-- Modelled from the spec: `DataWriter::write_varint` on an `i32`
(encoded as its unsigned 32-bit reinterpretation). -/
def writeVarint (v : Int) : List Nat := natVarintF 5 (v % (2 : Int) ^ 32).toNat

/-- Modelled from the spec: `DataWriter::write_string` — varint length
prefix followed by the string's bytes. -/
def writeString (s : List Nat) : List Nat := writeVarint s.length ++ s

/-- Modelled from the spec: `DataWriter::write_data` — raw bytes appended. -/
def writeData (d : List Nat) : List Nat := d

/-- Modelled from the spec: `DataWriter::write_bool`. -/
def writeBool (b : Bool) : List Nat := [if b then 1 else 0]

/-- Modelled from the spec: `DataWriter::write_i8`. -/
def writeI8 (v : Int) : List Nat := [(v % 256).toNat]

/-- Modelled from the spec: `DataWriter::write_i32`, big-endian. -/
def writeI32 (v : Int) : List Nat := beBytes 4 (v % (2 : Int) ^ 32).toNat

/-- Modelled from the spec: `DataWriter::write_i64`, big-endian. -/
def writeI64 (v : Int) : List Nat := beBytes 8 (v % (2 : Int) ^ 64).toNat

/-- Modelled from the spec: `DataWriter::write_position` — the packed
64-bit position value, big-endian. -/
def writePosition (p : Position) : List Nat := beBytes 8 (p % 2 ^ 64)

/-- `PlayerInfoProperties` from src/packets.rs. -/
structure PlayerInfoProperties where
  name : List Nat
  value : List Nat
  signature : Option (List Nat)
deriving DecidableEq

/-- `PlayerInfoAction` from src/packets.rs. -/
inductive PlayerInfoAction where
  | AddPlayer (name : List Nat) (properties : List PlayerInfoProperties)
      (gamemode : Int) (ping : Int) (display_name : Option ChatComponent)
  | UpdateGameMode (gamemode : Int)
  | UpdateLatency (ping : Int)
  | UpdateDisplayName (display_name : Option ChatComponent)
  | RemovePlayer
deriving DecidableEq

/-- `PlayerInfoPlayer` from src/packets.rs. -/
structure PlayerInfoPlayer where
  uuid : Uuid
  action : PlayerInfoAction
deriving DecidableEq

/-- The `Packet` enum from src/packets.rs. Field types follow the Rust
declaration under the modelling conventions above. -/
inductive Packet where
  | Handshake (protocol_version : Int) (server_address : List Nat)
      (server_port : Nat) (next_state : Nat)
  | StatusRequest
  | Ping (ping : Int)
  | StatusResponse (json : JsonValue)
  | Pong (pong : Int)
  | LoginStart (nickname : List Nat)
  | EncryptionRequest (server : List Nat) (public_key_length : Int)
      (public_key : List Nat) (verify_token_length : Int) (verify_token : List Nat)
  | EncryptionResponse (shared_secret_length : Int) (shared_secret : List Nat)
      (verify_token_length : Int) (verify_token : List Nat)
  | LoginSuccess (uuid : Uuid) (nickname : List Nat)
  | DisconnectLogin (reason : ChatComponent)
  | KeepAlive (id : Int)
  | JoinGame (entity_id : Int) (gamemode : Nat) (dimension : Int)
      (difficulty : Nat) (max_players : Nat) (level_type : List Nat)
      (reduced_debug_info : Bool)
  | SpawnPosition (location : Position)
  | HeldItemChange (slot : Nat)
  | PlayerInfo (action_id : Int) (players : List PlayerInfoPlayer)
  | DisconnectPlay (reason : ChatComponent)
deriving DecidableEq

/-- `Packet::read` from src/packets.rs: dispatch on `ConnectionState`
first, then on the numeric id, threading the `DataReader` through the
field reads in source order. The Rust `match id` on integer literals is
rendered as the equivalent chain of equality tests. -/
def Packet.read (id : Int) (data : List Nat) (state : ConnectionState) :
    Except String Packet :=
  match state with
  | .Play =>
    if id = 0 then
      match readVarint data with
      | .error e => .error e
      | .ok (v, _) => .ok (.KeepAlive v)
    else .error "Inexistent packet ID"
  | .Login =>
    if id = 0 then
      match readString data with
      | .error e => .error e
      | .ok (nickname, _) => .ok (.LoginStart nickname)
    else if id = 1 then
      match readVarint data with
      | .error e => .error e
      | .ok (shared_secret_length, r1) =>
        match readDataFixed (usizeOfI32 shared_secret_length) r1 with
        | .error e => .error e
        | .ok (shared_secret, r2) =>
          match readVarint r2 with
          | .error e => .error e
          | .ok (verify_token_length, r3) =>
            match readDataFixed (usizeOfI32 verify_token_length) r3 with
            | .error e => .error e
            | .ok (verify_token, _) =>
              .ok (.EncryptionResponse shared_secret_length shared_secret
                    verify_token_length verify_token)
    else .error "Inexistent packet ID"
  | .Handshaking =>
    if id = 0 then
      match readVarint data with
      | .error e => .error e
      | .ok (protocol_version, r1) =>
        match readString r1 with
        | .error e => .error e
        | .ok (server_address, r2) =>
          match readU16 r2 with
          | .error e => .error e
          | .ok (server_port, r3) =>
            match readU8 r3 with
            | .error e => .error e
            | .ok (next_state, _) =>
              .ok (.Handshake protocol_version server_address server_port next_state)
    else .error "You were supposed to send the handshake packet."
  | .Status =>
    if id = 0 then .ok .StatusRequest
    else if id = 1 then
      match readI64 data with
      | .error e => .error e
      | .ok (ping, _) => .ok (.Ping ping)
    else .error "Inexistent packet ID"

/-- ASCII code of the lowercase hex digit for `n < 16`. -/
def hexAsciiDigit (n : Nat) : Nat := if n < 10 then 48 + n else 87 + n

/-- Lowercase hex rendering of a byte list, as ASCII bytes (two digits per
byte, as in rustc-serialize's `to_hex`). -/
def bytesToHexAscii (l : List Nat) : List Nat :=
  (l.map (fun b => [hexAsciiDigit (b / 16 % 16), hexAsciiDigit (b % 16)])).flatten

/-- `uuid.to_hyphenated().to_string()`, as UTF-8 bytes: 8-4-4-4-12 lowercase
hex digits with hyphens (ASCII 45). -/
def uuidHyphenated (u : Uuid) : List Nat :=
  bytesToHexAscii (u.take 4) ++ [45] ++
  bytesToHexAscii ((u.drop 4).take 2) ++ [45] ++
  bytesToHexAscii ((u.drop 6).take 2) ++ [45] ++
  bytesToHexAscii ((u.drop 8).take 2) ++ [45] ++
  bytesToHexAscii (u.drop 10)

/-- Per-player encoding of the `PlayerInfo` loop body in
`Packet::serialize`: the raw 16 uuid bytes, then the action's fields. -/
def encodePlayerInfoPlayer (pl : PlayerInfoPlayer) : List Nat :=
  writeData pl.uuid ++
  match pl.action with
  | .AddPlayer name properties gamemode ping display_name =>
    writeString name ++ writeVarint properties.length ++
    (properties.map (fun pr =>
      writeString pr.name ++ writeString pr.value ++
      match pr.signature with
      | some s => writeBool true ++ writeString s
      | none => writeBool false)).flatten ++
    writeVarint gamemode ++ writeVarint ping ++
    (match display_name with
     | some d => writeBool true ++ writeString d
     | none => writeBool false)
  | .UpdateGameMode gamemode => writeVarint gamemode
  | .UpdateLatency ping => writeVarint ping
  | .UpdateDisplayName display_name =>
    (match display_name with
     | some d => writeBool true ++ writeString d
     | none => writeBool false)
  | .RemovePlayer => []

/-- `Packet::serialize` from src/packets.rs: each serialisable branch
appends its id byte and fields to the writer in source order (sequential
writer appends are rendered as list concatenation); the catch-all branch
fails. -/
def Packet.serialize : Packet → Except String (List Nat)
  | .EncryptionRequest server public_key_length public_key verify_token_length verify_token =>
    .ok (writeU8 0x01 ++ writeString server ++ writeVarint public_key_length ++
      writeData public_key ++ writeVarint verify_token_length ++ writeData verify_token)
  | .DisconnectLogin reason => .ok (writeU8 0x00 ++ writeString reason)
  | .DisconnectPlay reason => .ok (writeU8 0x40 ++ writeString reason)
  | .StatusResponse json => .ok (writeU8 0x00 ++ writeString json)
  | .Pong pong => .ok (writeU8 0x01 ++ writeI64 pong)
  | .LoginSuccess uuid nickname =>
    .ok (writeU8 0x02 ++ writeString (uuidHyphenated uuid) ++ writeString nickname)
  | .KeepAlive id => .ok (writeU8 0x00 ++ writeVarint id)
  | .JoinGame entity_id gamemode dimension difficulty max_players level_type reduced_debug_info =>
    .ok (writeU8 0x01 ++ writeI32 entity_id ++ writeU8 gamemode ++ writeI8 dimension ++
      writeU8 difficulty ++ writeU8 max_players ++ writeString level_type ++
      writeBool reduced_debug_info)
  | .SpawnPosition location => .ok (writeU8 0x05 ++ writePosition location)
  | .HeldItemChange slot => .ok (writeU8 0x09 ++ writeU8 slot)
  | .PlayerInfo action_id players =>
    .ok (players.foldl (fun acc pl => acc ++ encodePlayerInfoPlayer pl)
      (writeU8 0x38 ++ writeVarint action_id ++ writeVarint players.length))
  | _ => .error "Can\x27t serialize this packet"

/-- The fused complement-and-increment loop of `two_complement` in
src/net/login_handler.rs, processing the byte list least-significant
(last array index) first. Returns the processed bytes and a flag
recording whether any increment `bytes[i] + 1` left the u8 range
(wrap-around is the release-mode result; in a debug build that increment
panics). The pending-carry flag after a step is `complemented = 0xff`,
exactly as in the source. -/
def twoComplementLoop : List Nat → Bool → List Nat × Bool
  | [], _ => ([], false)
  | b :: rest, carry =>
    let comp := 255 - b
    if carry then
      let r := twoComplementLoop rest (decide (comp = 255))
      ((comp + 1) % 256 :: r.1, decide (comp = 255) || r.2)
    else
      let r := twoComplementLoop rest false
      (comp :: r.1, r.2)

/-- `two_complement` from src/net/login_handler.rs: iterate from the last
byte to the first, complementing every byte and adding one while the
carry is pending. -/
def twoComplement (d : List Nat) : List Nat :=
  ((twoComplementLoop d.reverse true).1).reverse

/-- `true` when some increment inside `two_complement` overflows the u8
range (the complemented byte was `0xff`, so `bytes[i] + 1` is 256). -/
def twoComplementOverflows (d : List Nat) : Bool :=
  (twoComplementLoop d.reverse true).2

/-- Lowercase hex digit character for `n < 16`. -/
def hexDigitChar (n : Nat) : Char := Char.ofNat (hexAsciiDigit n)

/-- `to_hex` (rustc-serialize) of a byte list: two lowercase hex digits per
byte. -/
def bytesToHex (l : List Nat) : String :=
  String.mk ((l.map (fun b => [hexDigitChar (b / 16 % 16), hexDigitChar (b % 16)])).flatten)

/-- The regex `^0+` replaced by the empty string: drop the leading run of
zero digits. -/
def stripLeadingZeros (s : String) : String :=
  String.mk (s.toList.dropWhile (fun c => c == '0'))

/-- `hex_digest` from src/net/login_handler.rs, taking the finished 20-byte
SHA-1 digest (the hashing itself is the external crypto primitive): test
the top bit of byte 0; if set, two's-complement the bytes and format with a
leading minus; either way render lowercase hex and strip leading zeros. -/
def hexDigest (d : List Nat) : String :=
  let negative := Nat.testBit (d.headD 0) 7
  if negative then "-" ++ stripLeadingZeros (bytesToHex (twoComplement d))
  else stripLeadingZeros (bytesToHex d)

/-- Spec-side negation, following the claim's words: bitwise complement of
all bytes, THEN add one with the carry propagating from the last byte
(two separate passes, unlike the code's fused loop). -/
def addOneFromLast : List Nat → List Nat
  | [] => []
  | b :: rest => if b = 255 then 0 :: addOneFromLast rest else (b + 1) :: rest

/-- Spec-side two's-complement negation of a byte string: complement every
byte, then add one starting at the last byte with carry propagation. -/
def specNegate (d : List Nat) : List Nat :=
  (addOneFromLast ((d.map (fun b => 255 - b)).reverse)).reverse

/-- `RawPacket` from `crate::net::newer_network_manager` (not under src/):
spec §3 — an opaque (numeric id, byte payload) pair from the transport. -/
structure RawPacket where
  id : Int
  data : List Nat

/-- The process-wide and per-connection collaborators of the login handler
that live outside src/ (spec §§3, 5, 6): the RSA private-decryption
primitive (PKCS#1 v1.5), the fresh random verify token drawn at
`LoginStart`, the DER public key, and the status JSON document built by
the excluded status-document collaborator. -/
structure Env where
  decrypt : List Nat → Option (List Nat)
  freshToken : List Nat
  publicKey : List Nat
  statusJson : List Nat

/-- `PlayerLoginClient` (declared in `crate::net::newer_network_manager`,
not under src/), with exactly the fields src/net/login_handler.rs touches;
spec §3 `ClientSession`. `written` is the outbound write sink: `client.write`
appends the packet. The cipher fields hold the (key, iv) pair the CFB8
stream cipher was initialised from. -/
structure Client where
  state : ConnectionState
  nickname : Option (List Nat)
  verify_token : Option (List Nat)
  encode : Option (List Nat × List Nat)
  decode : Option (List Nat × List Nat)
  identifier : List Nat
  written : List Packet
deriving DecidableEq

/-- One iteration body of `handle`'s match in src/net/login_handler.rs, for
an already-decoded packet. `none` models a Rust panic:
`client.verify_token.unwrap()` on `None`, or `Cfb8::new_var(ss, ss).unwrap()`
when the decrypted shared secret is not a 16-byte AES-128 key. The RSA
buffer semantics follow the source: a 128-byte zeroed buffer that keeps its
zeros when `private_decrypt` fails (the error branch is an empty TODO), and
whose first four bytes are compared against the stored token. The sha1
session-hash computation in the source binds no variable and sends nothing,
so it has no observable effect here. -/
def handlePacket (env : Env) (client : Client) : Packet → Option Client
  | .Handshake _ _ _ next_state =>
    if next_state = 1 then some { client with state := .Status }
    else if next_state = 2 then some { client with state := .Login }
    else some client
  | .StatusRequest =>
    some { client with written := client.written ++ [.StatusResponse env.statusJson] }
  | .Ping ping =>
    some { client with written := client.written ++ [.Pong ping] }
  | .LoginStart nickname =>
    some { client with
      verify_token := some env.freshToken,
      written := client.written ++
        [.EncryptionRequest [] env.publicKey.length env.publicKey
          env.freshToken.length env.freshToken],
      identifier := nickname,
      nickname := some nickname }
  | .EncryptionResponse _ shared_secret _ verify_token =>
    let decrypted_verify_token :=
      match env.decrypt verify_token with
      | some pt => (pt ++ List.replicate 128 0).take 4
      | none => List.replicate 4 0
    match client.verify_token with
    | none => none
    | some stored =>
      let _mismatch := decrypted_verify_token ≠ stored
      match env.decrypt shared_secret with
      | none => some client
      | some ss =>
        if ss.length = 16 then
          some { client with
            encode := some (ss, ss),
            decode := some (ss, ss),
            written := client.written ++
              [.LoginSuccess (List.replicate 16 0) (strBytes "britney bitch")] }
        else none
  | _ => some client

/-- `handle` from src/net/login_handler.rs: process the batch in order; a
packet whose decode fails is skipped (`continue`); a panic inside a branch
aborts the whole run. The handler's own `Packet::read` lives in
`crate::game::packets`, which is not under src/ and returns `Option`; it is
modelled by src/packets.rs's `Packet::read` (the in-repo decoder for the
same wire format), with any error causing the skip. -/
def handle (env : Env) : List RawPacket → Client → Option Client
  | [], client => some client
  | raw :: rest, client =>
    match Packet.read raw.id raw.data client.state with
    | .error _ => handle env rest client
    | .ok p =>
      match handlePacket env client p with
      | none => none
      | some client2 => handle env rest client2

/-- Spec-side table (spec §6): the numeric id of every packet variant. -/
def protocolId : Packet → Nat
  | .Handshake _ _ _ _ => 0x00
  | .StatusRequest => 0x00
  | .Ping _ => 0x01
  | .StatusResponse _ => 0x00
  | .Pong _ => 0x01
  | .LoginStart _ => 0x00
  | .EncryptionRequest _ _ _ _ _ => 0x01
  | .EncryptionResponse _ _ _ _ => 0x01
  | .LoginSuccess _ _ => 0x02
  | .DisconnectLogin _ => 0x00
  | .KeepAlive _ => 0x00
  | .JoinGame _ _ _ _ _ _ _ => 0x01
  | .SpawnPosition _ => 0x05
  | .HeldItemChange _ => 0x09
  | .PlayerInfo _ _ => 0x38
  | .DisconnectPlay _ => 0x40

/-- The inbound-only (client-to-server) variants, which `Packet::serialize`
must refuse. -/
def isInboundOnly : Packet → Bool
  | .Handshake _ _ _ _ => true
  | .StatusRequest => true
  | .Ping _ => true
  | .LoginStart _ => true
  | .EncryptionResponse _ _ _ _ => true
  | _ => false

/-- Spec-side field layout (spec §6): the bytes following the id byte for
each server-to-client variant, in the fixed protocol order ([] for the
inbound-only variants, which never encode). -/
def fieldsEnc : Packet → List Nat
  | .StatusResponse json => writeString json
  | .Pong pong => writeI64 pong
  | .EncryptionRequest server public_key_length public_key verify_token_length verify_token =>
    writeString server ++ writeVarint public_key_length ++ public_key ++
    writeVarint verify_token_length ++ verify_token
  | .LoginSuccess uuid nickname =>
    writeString (uuidHyphenated uuid) ++ writeString nickname
  | .DisconnectLogin reason => writeString reason
  | .KeepAlive id => writeVarint id
  | .JoinGame entity_id gamemode dimension difficulty max_players level_type reduced_debug_info =>
    writeI32 entity_id ++ writeU8 gamemode ++ writeI8 dimension ++ writeU8 difficulty ++
    writeU8 max_players ++ writeString level_type ++ writeBool reduced_debug_info
  | .SpawnPosition location => writePosition location
  | .HeldItemChange slot => writeU8 slot
  | .PlayerInfo action_id players =>
    writeVarint action_id ++ writeVarint players.length ++
    (players.map encodePlayerInfoPlayer).flatten
  | .DisconnectPlay reason => writeString reason
  | _ => []

/-- A 16-byte decrypted shared secret used by the concrete handshake runs. -/
def ssBytes : List Nat := List.replicate 16 7

/-- Environment whose RSA oracle decrypts the wire token `[10]` to a token
that MISMATCHES the stored `[1,2,3,4]`, and the wire secret `[11]` to a
valid 16-byte key. -/
def envMismatch : Env :=
  { decrypt := fun l =>
      if l = [10] then some [1, 2, 3, 5]
      else if l = [11] then some ssBytes
      else none,
    freshToken := [1, 2, 3, 4], publicKey := [], statusJson := [] }

/-- Environment whose RSA oracle decrypts the wire token `[10]` to exactly
the stored token `[1,2,3,4]` and the wire secret `[11]` to a valid
16-byte key. -/
def envMatch : Env :=
  { decrypt := fun l =>
      if l = [10] then some [1, 2, 3, 4]
      else if l = [11] then some ssBytes
      else none,
    freshToken := [1, 2, 3, 4], publicKey := [], statusJson := [] }

/-- Environment whose RSA oracle always fails (unused by the packets of the
runs that take it). -/
def envNone : Env :=
  { decrypt := fun _ => none, freshToken := [1, 2, 3, 4], publicKey := [],
    statusJson := [] }

/-- A session in Login state that has completed LoginStart with stored
verify token `[1,2,3,4]` and no cipher state yet. -/
def loginClient : Client :=
  { state := .Login, nickname := some (strBytes "alice"),
    verify_token := some [1, 2, 3, 4], encode := none, decode := none,
    identifier := strBytes "alice", written := [] }

/-- A fresh session in Handshaking state. -/
def hsClient : Client :=
  { state := .Handshaking, nickname := none, verify_token := none,
    encode := none, decode := none, identifier := [], written := [] }

/-- The wire bytes of an EncryptionResponse in Login state: varint length 1,
encrypted shared secret `[11]`, varint length 1, encrypted verify token
`[10]`. -/
def erData : List Nat := [1, 11, 1, 10]

/-- The wire bytes of a Handshake packet with the given next-state byte:
varint protocol version 47, empty server address, u16 port 0. -/
def hsData (ns : Nat) : List Nat := [47, 0, 0, 0, ns]

theorem tcLoop_false (l : List Nat) :
    twoComplementLoop l false = (l.map (fun b => 255 - b), false) := by
  induction l with
  | nil => rfl
  | cons b t ih => simp [twoComplementLoop, ih]

theorem tcLoop_true_fst (l : List Nat) :
    (twoComplementLoop l true).1 = addOneFromLast (l.map (fun b => 255 - b)) := by
  induction l with
  | nil => rfl
  | cons b t ih =>
    by_cases hb : b = 0
    · subst hb
      simp [twoComplementLoop, addOneFromLast, ih]
    · have h255 : ¬(255 - b = 255) := by omega
      have hlt : 255 - b + 1 < 256 := by omega
      simp [twoComplementLoop, addOneFromLast, tcLoop_false, h255, Nat.mod_eq_of_lt hlt]

/-- The code's fused complement-and-increment loop computes exactly the
spec's two-pass negation: complement every byte, then add one with carry
from the last byte. -/
theorem twoComplement_eq_specNegate (d : List Nat) : twoComplement d = specNegate d := by
  unfold twoComplement specNegate
  rw [tcLoop_true_fst, List.map_reverse]

theorem tcLoop_snd_false (l : List Nat) : (twoComplementLoop l false).2 = false := by
  simp [tcLoop_false]

theorem testBit7_iff (b : Nat) (hb : b < 256) : Nat.testBit b 7 = true ↔ 128 ≤ b := by
  rw [Nat.testBit_to_div_mod]
  simp only [decide_eq_true_eq]
  omega

/-- C9 (amended): the increment inside `two_complement` overflows the u8
range exactly when the input's last byte is 0 (the complemented byte is
then `0xff` and `bytes[i] + 1` is 256); for every other 20-byte input every
increment stays in range. -/
theorem two_complement_overflow_iff_last_zero (d : List Nat) (h : d.length = 20) :
    twoComplementOverflows d = true ↔ d.getLast? = some 0 := by
  cases hrev : d.reverse with
  | nil =>
    have := congrArg List.length hrev
    simp [h] at this
  | cons b t =>
    have hlast : d.getLast? = some b := by
      rw [← List.head?_reverse, hrev]
      rfl
    rw [hlast]
    unfold twoComplementOverflows
    rw [hrev]
    by_cases hb : b = 0
    · subst hb
      simp [twoComplementLoop]
    · have h255 : ¬(255 - b = 255) := by omega
      simp [twoComplementLoop, h255, tcLoop_snd_false, hb]

/-- C9 (counterexample): on the digest `0x80 00 … 00` — whose top bit is
set, so `hex_digest` does call `two_complement` — the very first increment
is `0xff + 1`, which leaves the u8 range (a panic in a debug build). -/
theorem two_complement_increment_overflows :
    twoComplementOverflows (128 :: List.replicate 19 0) = true ∧
    Nat.testBit 128 7 = true := by decide

/-- Witness for C9's amended theorem at a concrete digest whose last byte
is nonzero. -/
theorem two_complement_overflow_iff_last_zero_witness :
    (twoComplementOverflows (128 :: (List.replicate 18 0 ++ [1])) = true ↔
      (128 :: (List.replicate 18 0 ++ [1])).getLast? = some 0) :=
  two_complement_overflow_iff_last_zero _ (by decide)

/-- C4: for every 20-byte digest, `hex_digest` yields the lowercase hex of
the two's-complement negation (complement all bytes, then add one with
carry from the last byte) with leading zero digits stripped and a `-`
prefix when the top bit of byte 0 is set, and the plain stripped lowercase
hex when it is clear. -/
theorem hexDigest_signed_hex (d : List Nat) (h20 : d.length = 20)
    (hb : ∀ b ∈ d, b < 256) :
    (128 ≤ d.headD 0 →
      hexDigest d = "-" ++ stripLeadingZeros (bytesToHex (specNegate d))) ∧
    (d.headD 0 < 128 → hexDigest d = stripLeadingZeros (bytesToHex d)) := by
  have hhead : d.headD 0 < 256 := by
    cases d with
    | nil => simp at h20
    | cons x t => exact hb x (List.mem_cons_self x t)
  constructor
  · intro h128
    have ht : Nat.testBit (d.headD 0) 7 = true := (testBit7_iff _ hhead).2 h128
    unfold hexDigest
    rw [ht]
    simp [twoComplement_eq_specNegate]
  · intro hlt
    have ht : Nat.testBit (d.headD 0) 7 = false := by
      rcases Bool.eq_false_or_eq_true (Nat.testBit (d.headD 0) 7) with htr | hf
      · exact absurd ((testBit7_iff _ hhead).1 htr) (by omega)
      · exact hf
    unfold hexDigest
    rw [ht]
    simp

/-- Witness for C4 at two concrete digests, one negative, one positive. -/
theorem hexDigest_signed_hex_witness :
    hexDigest (128 :: List.replicate 19 0) =
      "-" ++ stripLeadingZeros (bytesToHex (specNegate (128 :: List.replicate 19 0))) ∧
    hexDigest (1 :: List.replicate 19 255) =
      stripLeadingZeros (bytesToHex (1 :: List.replicate 19 255)) :=
  ⟨(hexDigest_signed_hex _ (by decide) (by decide)).1 (by decide),
   (hexDigest_signed_hex _ (by decide) (by decide)).2 (by decide)⟩

/-- C5: on the all-zero digest the regex `^0+` matches all forty digits, so
`hex_digest` returns the empty string, not the single digit 0 the spec
mandates. -/
theorem hexDigest_zero_digest_empty :
    hexDigest (List.replicate 20 0) = "" ∧ ("" : String) ≠ "0" := by
  constructor
  · decide
  · decide

deriving instance DecidableEq for Except

/-- C6 (counterexample): a 0x00 id with empty payload in Login state fails
with the codec's malformed-varint error (the nickname string read), which
is not the unknown-id error the claim names. -/
theorem read_login_empty_not_unknown_id :
    Packet.read 0 [] .Login = .error "MalformedVarint" ∧
    "MalformedVarint" ≠ "Inexistent packet ID" := by decide

/-- C6 (amended): decoding dispatches on the connection state first and the
numeric id second; an id with no match in Login state fails with the
unknown-id error; a 0x00 id with empty payload in Login state is routed to
the LoginStart field decode and fails with the codec's malformed-varint
error — not the unknown-id error — while the same id and payload in Status
state decode as StatusRequest. -/
theorem read_state_then_id_dispatch :
    (∀ (id : Int) (data : List Nat), id ≠ 0 → id ≠ 1 →
      Packet.read id data .Login = .error "Inexistent packet ID") ∧
    Packet.read 0 [] .Login = .error "MalformedVarint" ∧
    Packet.read 0 [] .Status = .ok .StatusRequest := by
  refine ⟨?_, by decide, by decide⟩
  intro id data h0 h1
  simp [Packet.read, h0, h1]

/-- Witness for C6's amended theorem at a concrete unmatched id. -/
theorem read_state_then_id_dispatch_witness :
    Packet.read 5 [] .Login = .error "Inexistent packet ID" :=
  read_state_then_id_dispatch.1 5 [] (by decide) (by decide)

theorem varintLoop_length (fuel : Nat) :
    ∀ (shift acc : Nat) (l : List Nat) (n : Nat) (r : List Nat),
      varintLoop fuel shift acc l = .ok (n, r) → r.length ≤ l.length := by
  induction fuel with
  | zero =>
    intro shift acc l n r h
    simp [varintLoop] at h
  | succ f ih =>
    intro shift acc l n r h
    cases l with
    | nil => simp [varintLoop] at h
    | cons b t =>
      simp only [varintLoop] at h
      by_cases hb : b < 128
      · rw [if_pos hb] at h
        simp only [Except.ok.injEq, Prod.mk.injEq] at h
        obtain ⟨-, h2⟩ := h
        subst h2
        simp
      · rw [if_neg hb] at h
        have := ih _ _ _ _ _ h
        simp only [List.length_cons]
        omega

theorem readVarint_ok (l : List Nat) (v : Int) (r : List Nat)
    (h : readVarint l = .ok (v, r)) :
    -(2 ^ 31) ≤ v ∧ v < 2 ^ 31 ∧ r.length ≤ l.length := by
  unfold readVarint at h
  cases hv : varintLoop 5 0 0 l with
  | error e => rw [hv] at h; simp at h
  | ok p =>
    obtain ⟨n, r2⟩ := p
    rw [hv] at h
    simp only [Except.ok.injEq, Prod.mk.injEq] at h
    obtain ⟨h1, h2⟩ := h
    subst h1
    subst h2
    refine ⟨?_, ?_, varintLoop_length _ _ _ _ _ _ hv⟩ <;>
    · unfold toSigned32
      have hm : n % 2 ^ 32 < 2 ^ 32 := Nat.mod_lt _ (by norm_num)
      split <;> omega

theorem readDataFixed_ok (n : Nat) (l d r : List Nat)
    (h : readDataFixed n l = .ok (d, r)) :
    d.length = n ∧ n ≤ l.length ∧ r.length ≤ l.length := by
  unfold readDataFixed at h
  split at h
  · next hle =>
    simp only [Except.ok.injEq, Prod.mk.injEq] at h
    obtain ⟨h1, h2⟩ := h
    subst h1
    subst h2
    refine ⟨?_, hle, ?_⟩ <;> simp [hle]
  · simp at h

theorem usizeOfI32_nonneg (v : Int) (h0 : 0 ≤ v) (h31 : v < 2 ^ 31) :
    (usizeOfI32 v : Int) = v := by
  unfold usizeOfI32
  have h64 : ((2 : Int) ^ 64) = 18446744073709551616 := by norm_num
  rw [h64]
  omega

theorem usizeOfI32_neg (v : Int) (hlo : -(2 ^ 31) ≤ v) (hneg : v < 0) :
    2 ^ 63 < usizeOfI32 v := by
  unfold usizeOfI32
  have h64 : ((2 : Int) ^ 64) = 18446744073709551616 := by norm_num
  have h63 : ((2 : Nat) ^ 63) = 9223372036854775808 := by norm_num
  rw [h64, h63]
  omega

/-- C8: whenever decoding id 0x01 in Login state succeeds (for any input a
real Rust buffer can hold, hence shorter than `2^63` bytes), the explicit
length fields of the resulting EncryptionResponse equal the lengths of the
byte data they describe. -/
theorem encryption_response_lengths_agree (data : List Nat)
    (hlen : data.length < 2 ^ 63)
    (ssl : Int) (ss : List Nat) (vtl : Int) (vt : List Nat)
    (h : Packet.read 1 data .Login = .ok (.EncryptionResponse ssl ss vtl vt)) :
    ssl = (ss.length : Int) ∧ vtl = (vt.length : Int) := by
  simp only [Packet.read] at h
  split at h
  case isTrue h0 => exact absurd h0 (by norm_num)
  case isFalse h0 =>
    split at h
    case isFalse h1 => exact absurd h (by simp)
    case isTrue h1 =>
    split at h
    · simp at h
    · next ssl1 r1 heq1 =>
      split at h
      · simp at h
      · next ss1 r2 heq2 =>
        split at h
        · simp at h
        · next vtl1 r3 heq3 =>
          split at h
          · simp at h
          · next vt1 r4 heq4 =>
            simp only [Except.ok.injEq, Packet.EncryptionResponse.injEq] at h
            obtain ⟨h1, h2, h3, h4⟩ := h
            subst h1
            subst h2
            subst h3
            subst h4
            obtain ⟨hsl_lo, hsl_hi, hr1⟩ := readVarint_ok _ _ _ heq1
            obtain ⟨hss_len, hss_le, hr2⟩ := readDataFixed_ok _ _ _ _ heq2
            obtain ⟨hvl_lo, hvl_hi, hr3⟩ := readVarint_ok _ _ _ heq3
            obtain ⟨hvt_len, hvt_le, hr4⟩ := readDataFixed_ok _ _ _ _ heq4
            have hssl0 : 0 ≤ ssl1 := by
              by_contra hneg
              push_neg at hneg
              have := usizeOfI32_neg ssl1 hsl_lo hneg
              omega
            have hvtl0 : 0 ≤ vtl1 := by
              by_contra hneg
              push_neg at hneg
              have := usizeOfI32_neg vtl1 hvl_lo hneg
              omega
            constructor
            · rw [hss_len]
              exact (usizeOfI32_nonneg ssl1 hssl0 hsl_hi).symm
            · rw [hvt_len]
              exact (usizeOfI32_nonneg vtl1 hvtl0 hvl_hi).symm

/-- Witness for C8 at a concrete successfully-decoding input. -/
theorem encryption_response_lengths_agree_witness :
    (1 : Int) = (([9] : List Nat).length : Int) ∧
    (1 : Int) = (([8] : List Nat).length : Int) :=
  encryption_response_lengths_agree [1, 9, 1, 8] (by norm_num) 1 [9] 1 [8] (by decide)

theorem foldl_append_flatten {α : Type} (f : α → List Nat) (l : List α) (base : List Nat) :
    l.foldl (fun acc x => acc ++ f x) base = base ++ (l.map f).flatten := by
  induction l generalizing base with
  | nil => simp
  | cons x t ih => simp [ih, List.append_assoc]

/-- C7: `Packet::serialize` fails with the not-encodable error on exactly
the inbound-only variants (Handshake, StatusRequest, Ping, LoginStart,
EncryptionResponse) and succeeds on every server-to-client variant,
emitting the variant's numeric id byte first and then its fields in the
fixed protocol order of spec §6. -/
theorem serialize_outbound_only (p : Packet) :
    (isInboundOnly p = true → p.serialize = .error "Can\x27t serialize this packet") ∧
    (isInboundOnly p = false → p.serialize = .ok (writeU8 (protocolId p) ++ fieldsEnc p)) := by
  constructor
  · intro h
    cases p <;> simp_all [Packet.serialize, isInboundOnly]
  · intro h
    cases p <;>
      simp_all [Packet.serialize, isInboundOnly, fieldsEnc, protocolId, writeData,
        foldl_append_flatten, List.append_assoc]

/-- Witness for C7 at one inbound-only and one outbound variant. -/
theorem serialize_outbound_only_witness :
    Packet.serialize .StatusRequest = .error "Can\x27t serialize this packet" ∧
    Packet.serialize (.Pong 99) =
      .ok (writeU8 (protocolId (.Pong 99)) ++ fieldsEnc (.Pong 99)) :=
  ⟨(serialize_outbound_only .StatusRequest).1 rfl,
   (serialize_outbound_only (.Pong 99)).2 rfl⟩

/-- C10: a raw packet whose decode fails is skipped — the session is left
exactly as it was and the remaining packets of the batch are processed as
if the failing packet were absent. -/
theorem handle_skips_unreadable_packet (env : Env) (raw : RawPacket)
    (rest : List RawPacket) (client : Client) (e : String)
    (h : Packet.read raw.id raw.data client.state = .error e) :
    handle env (raw :: rest) client = handle env rest client := by
  simp [handle, h]

/-- Witness for C10 at a concrete undecodable raw packet. -/
theorem handle_skips_unreadable_packet_witness :
    Packet.read (7 : Int) ([] : List Nat) ConnectionState.Handshaking =
      .error "You were supposed to send the handshake packet." ∧
    handle envNone [⟨7, []⟩] hsClient = handle envNone [] hsClient :=
  ⟨by decide,
   handle_skips_unreadable_packet envNone ⟨7, []⟩ [] hsClient
     "You were supposed to send the handshake packet." (by decide)⟩

/-- C3: `next_state` 1 moves the session to Status and 2 to Login, but any
other value leaves the client completely untouched — the disconnect the
claim requires does not happen (the branch is an empty TODO in the
source). -/
theorem handshake_invalid_next_state_no_disconnect :
    handle envNone [⟨0, hsData 1⟩] hsClient = some { hsClient with state := .Status } ∧
    handle envNone [⟨0, hsData 2⟩] hsClient = some { hsClient with state := .Login } ∧
    handle envNone [⟨0, hsData 3⟩] hsClient = some hsClient := by
  refine ⟨by decide, by decide, by decide⟩

/-- C1: with stored token `[1,2,3,4]` and a response token decrypting to
`[1,2,3,5]`, the mismatch check has no effect (empty TODO branch in the
source) and both cipher states are still activated from the decrypted
shared secret — the claim's if-and-only-if and its required rejection both
fail on the code. -/
theorem cipher_activated_despite_token_mismatch :
    envMismatch.decrypt [10] = some [1, 2, 3, 5] ∧
    loginClient.verify_token = some [1, 2, 3, 4] ∧
    ([1, 2, 3, 5] : List Nat) ≠ [1, 2, 3, 4] ∧
    (handle envMismatch [⟨1, erData⟩] loginClient).map
        (fun c => (c.encode, c.decode)) =
      some (some (ssBytes, ssBytes), some (ssBytes, ssBytes)) := by
  refine ⟨by decide, by decide, by decide, by decide⟩

/-- C2: after a fully successful EncryptionResponse (token matches, secret
decrypts to a 16-byte key) the handler writes LoginSuccess but leaves the
session state at Login — it never assigns Play, and the failure branches
send no DisconnectLogin. -/
theorem login_success_without_play_transition :
    (handle envMatch [⟨1, erData⟩] loginClient).map
        (fun c => (c.state, c.written)) =
      some (ConnectionState.Login,
        [Packet.LoginSuccess (List.replicate 16 0) (strBytes "britney bitch")]) ∧
    ConnectionState.Login ≠ ConnectionState.Play := by
  refine ⟨by decide, by decide⟩
